import Mathlib

/-!
# Verification of the expiring-registry and renderer core of `code-gen.py`

Shallow embedding of the `premium-qr-generator` application
(`src/code-gen.py`).  Timestamps are modelled as natural numbers (seconds
since an arbitrary epoch); `datetime` comparison on ISO-format strings
produced by `isoformat`/`fromisoformat` agrees with comparison of the
underlying instants, so `<` on `Nat` models `<` on parsed timestamps.
Each call site of `datetime.now()` becomes an explicit time parameter.

The SQLite table `files` (schema at lines 23-33 of the source) is modelled
as a list of `FileRecord`; the filesystem visible to `os.path.exists` /
`os.remove` is modelled as the list of existing paths.  A column that is
SQL `NULL` or the empty string (both falsy under Python `if`) is modelled
as `none`.
-/

/-- One row of the `files` table, in schema column order:
`uuid, file_name, local_path, uploaded_at, expires_at, qr_url, scans`.
`expires_at = none` models a NULL/empty `expires_at` column (falsy in
Python); a stored ISO timestamp is `some` of its instant. -/
structure FileRecord where
  uuid : String
  file_name : String
  local_path : Option String
  uploaded_at : Nat
  expires_at : Option Nat
  qr_url : String
  scans : Nat
deriving DecidableEq, Repr

/-- The mutable state the application touches: the `files` table and the
set of filesystem paths that currently exist. -/
structure AppState where
  files : List FileRecord
  fs : List String
deriving DecidableEq, Repr

/-- `timedelta(days=d)` in seconds. -/
def daysToSeconds (d : Nat) : Nat := d * 86400

/-- Body of one iteration of the row loop of `cleanup_expired_files`
(source lines 44-53): if the row has a truthy `expires_at` that parses to
an instant strictly before `now`, remove the backing file when the path is
set and exists (`os.remove` failures are swallowed by the bare
`try/except: pass`; `removeOk p` says whether `os.remove p` would
succeed), then `DELETE FROM files WHERE uuid=?`. -/
def processRow (removeOk : String → Bool) (now : Nat) (st : AppState)
    (row : FileRecord) : AppState :=
  match row.expires_at with
  | none => st
  | some eTime =>
    if eTime < now then
      let fs1 :=
        match row.local_path with
        | none => st.fs
        | some p =>
          if st.fs.contains p then
            if removeOk p then st.fs.filter (fun q => q != p) else st.fs
          else st.fs
      { files := st.files.filter (fun x => x.uuid != row.uuid), fs := fs1 }
    else st

/-- `cleanup_expired_files` (source lines 39-54): fetch a snapshot of all
rows, run the loop body on each, commit.  `now` is the single
`datetime.now()` read at line 40.  The Python function has no `return`
statement, so its return value is `None`: the second component is the
value the Python call returns, where a sweep that reported a count would
return `some` of it. -/
def cleanup_expired_files (removeOk : String → Bool) (now : Nat)
    (st : AppState) : AppState × Option Nat :=
  (st.files.foldl (processRow removeOk now) st, none)

/-- The parsed-and-compared test `expires_at and fromisoformat(expires_at) < now`
applied to a row. -/
def rowExpired (now : Nat) (r : FileRecord) : Bool :=
  match r.expires_at with
  | none => false
  | some eTime => decide (eTime < now)

/-- A row of the pre-sweep snapshot `rows` survives the sweep iff no
expired row of the snapshot carries its uuid (the `DELETE` is by uuid). -/
def survives (now : Nat) (rows : List FileRecord) (x : FileRecord) : Bool :=
  rows.all fun r => !rowExpired now r || x.uuid != r.uuid

/-- Text mode record (source lines 222-231): `INSERT INTO files
VALUES(uid, qr_data, None, now().isoformat(), expires_at.isoformat(),
qr_data, 0)`.  `tExp` is the `datetime.now()` read at line 224 from which
`expires_at` is computed; `tUp` is the later `datetime.now()` read at
line 228 stored as `uploaded_at`. -/
def mkTextRecord (uid qr_data : String) (tExp tUp days : Nat) : FileRecord :=
  { uuid := uid, file_name := qr_data, local_path := none,
    uploaded_at := tUp, expires_at := some (tExp + daysToSeconds days),
    qr_url := qr_data, scans := 0 }

/-- Text-mode create (source lines 222-232): insert the new row. -/
def create_text (uid qr_data : String) (tExp tUp days : Nat)
    (st : AppState) : AppState :=
  { st with files := st.files ++ [mkTextRecord uid qr_data tExp tUp days] }

/-- `tempfile.gettempdir()`, modelled as a fixed directory. -/
def TEMP_DIR : String := "/tmp"

/-- `os.path.join(TEMP_DIR, f"{uid}_{name}")` (source line 239). -/
def uploadPath (uid name : String) : String :=
  TEMP_DIR ++ "/" ++ uid ++ "_" ++ name

/-- Upload mode record (source lines 238-253): `INSERT INTO files
VALUES(uid, name, path, now().isoformat(), expires_at.isoformat(),
"file://" + path, 0)`.  `tExp` is the `datetime.now()` read at line 245,
`tUp` the later read at line 250. -/
def mkUploadRecord (uid name : String) (tExp tUp days : Nat) : FileRecord :=
  { uuid := uid, file_name := name,
    local_path := some (uploadPath uid name), uploaded_at := tUp,
    expires_at := some (tExp + daysToSeconds days),
    qr_url := "file://" ++ uploadPath uid name, scans := 0 }

/-- Upload-mode create (source lines 238-254): write the uploaded bytes to
`path` (so the path exists afterwards) and insert the new row. -/
def create_upload (uid name : String) (tExp tUp days : Nat)
    (st : AppState) : AppState :=
  { files := st.files ++ [mkUploadRecord uid name tExp tUp days],
    fs :=
      if st.fs.contains (uploadPath uid name) then st.fs
      else st.fs ++ [uploadPath uid name] }

/-- The `uuid` column is the table PRIMARY KEY (source line 25), so any
state the database can hold has pairwise distinct uuids. -/
def uuidsNodup (st : AppState) : Prop :=
  (st.files.map (fun r => r.uuid)).Nodup

instance (st : AppState) : Decidable (uuidsNodup st) := by
  unfold uuidsNodup; infer_instance

/-- Modelled from the spec: `increment_scan(id)` atomically increments
`scan_count` for the record with the given id; no-op if the id no longer
exists.  The repository variant that implements the scan counter is not
under `src/` (only the `scans INTEGER DEFAULT 0` column of the schema at
source line 31 is); the operation is modelled from the words of the
specification (§4.3). -/
def increment_scan (id : String) (st : AppState) : AppState :=
  { st with
    files := st.files.map fun r =>
      if r.uuid == id then { r with scans := r.scans + 1 } else r }

/-- One externally-triggered action of the application, as present in
`src/code-gen.py`: a text-mode create, an upload-mode create, or the
expired-files sweep. -/
inductive Step : AppState → AppState → Prop where
  | text (uid qr_data : String) (tExp tUp days : Nat) (st : AppState) :
      Step st (create_text uid qr_data tExp tUp days st)
  | upload (uid name : String) (tExp tUp days : Nat) (st : AppState) :
      Step st (create_upload uid name tExp tUp days st)
  | sweep (removeOk : String → Bool) (now : Nat) (st : AppState) :
      Step st (cleanup_expired_files removeOk now st).1

/-- States reachable from an empty `files` table (the table is created
fresh by `CREATE TABLE IF NOT EXISTS`; the initial filesystem is
arbitrary) by the actions of the application. -/
inductive Reachable : AppState → Prop where
  | init (fs : List String) : Reachable ⟨[], fs⟩
  | step {st st' : AppState} : Reachable st → Step st st' → Reachable st'

/-!
## Image renderer (`generate_qr`, source lines 120-149)

The QR matrix itself is produced by the external `qrcode` library and is
out of scope; the logo branch (lines 131-147) operates on the rendered
image `img` and the decoded logo.  PIL images are modelled as a size, a
mode and a total pixel function; the uploader accepts PNG/JPEG logos,
decoded by PIL to an RGB or RGBA image.
-/

/-- 8-bit-per-channel pixel: red, green, blue, alpha. -/
structure RGBA where
  r : Nat
  g : Nat
  b : Nat
  a : Nat
deriving DecidableEq, Repr

/-- PIL image mode of the images involved (the QR image is converted to
`RGB` at source line 129; a decoded logo is `RGB` or `RGBA`). -/
inductive Mode where
  | RGB
  | RGBA
deriving DecidableEq, Repr

/-- A PIL image: dimensions, mode, and pixel accessor. -/
structure Img where
  w : Nat
  h : Nat
  mode : Mode
  px : Nat → Nat → RGBA

/-- A resampling kernel: given the source image and the target size, the
pixel function of the resized image.  The source uses LANCZOS; the claims
depend only on the output size and mode, so the kernel is kept as a
parameter. -/
abbrev Kernel := Img → Nat → Nat → Nat → Nat → RGBA

/-- Point-sampling kernel, used to instantiate `Kernel` on concrete
inputs. -/
def nearestKernel : Kernel := fun i w h x y =>
  i.px (x * i.w / w) (y * i.h / h)

/-- PIL `Image.resize((w, h), resample)`: new size, same mode, pixels
from the kernel. -/
def resize (k : Kernel) (i : Img) (w h : Nat) : Img :=
  { w := w, h := h, mode := i.mode, px := k i w h }

/-- PIL MULDIV255 rounding helper: `≈ round(a * b / 255)` computed as in
PIL (`tmp = a*b + 128; ((tmp >> 8) + tmp) >> 8`). -/
def muldiv255 (a b : Nat) : Nat :=
  ((a * b + 128) / 256 + (a * b + 128)) / 256

/-- One channel of PIL alpha blending: destination weighted by
`255 - m`, source by `m`. -/
def blendChannel (m s d : Nat) : Nat :=
  muldiv255 d (255 - m) + muldiv255 s m

/-- Blend source over destination at mask value `m`. -/
def blendPx (m : Nat) (s d : RGBA) : RGBA :=
  { r := blendChannel m s.r d.r, g := blendChannel m s.g d.g,
    b := blendChannel m s.b d.b, a := blendChannel m s.a d.a }

/-- Effect of an alpha-masked paste on one destination pixel: mask 0
keeps the destination, mask 255 takes the source, intermediate values
blend (PIL BLEND; on 8-bit channels the blend formula agrees with the two
endpoint cases written out here). -/
def pasteMaskedPx (m : Nat) (s d : RGBA) : RGBA :=
  if m = 0 then d
  else if 255 ≤ m then s
  else blendPx m s d

/-- PIL `base.paste(logo, pos, mask)` (source line 147): inside the box
`[pos.1, pos.1 + logo.w) × [pos.2, pos.2 + logo.h)` the logo is drawn —
opaquely when `mask` is `none`, through the mask image alpha band when
`mask` is `some`; outside the box the base pixel is kept. -/
def paste (base logo : Img) (pos : Int × Int) (mask : Option Img) : Img :=
  { base with
    px := fun x y =>
      let lx : Int := (x : Int) - pos.1
      let ly : Int := (y : Int) - pos.2
      if 0 ≤ lx ∧ lx < (logo.w : Int) ∧ 0 ≤ ly ∧ ly < (logo.h : Int) then
        match mask with
        | none => logo.px lx.toNat ly.toNat
        | some mk => pasteMaskedPx (mk.px lx.toNat ly.toNat).a
            (logo.px lx.toNat ly.toNat) (base.px x y)
      else base.px x y }

/-- Round `p / q` (with `q > 0`) to the nearest integer, ties to even:
the final rounding step of an IEEE binary64 operation. -/
def roundMantissa (p q : Nat) : Nat :=
  let n0 := p / q
  let r := p % q
  if 2 * r < q then n0
  else if q < 2 * r then n0 + 1
  else if n0 % 2 = 0 then n0 else n0 + 1

/-- Fuelled binary logarithm (a structurally recursive `Nat.log2`):
`log2Fuel fuel n` is `⌊log2 n⌋` for `n ≥ 1` whenever `fuel ≥ log2 n`. -/
def log2Fuel : Nat → Nat → Nat
  | 0, _ => 0
  | fuel + 1, n => if n ≤ 1 then 0 else log2Fuel fuel (n / 2) + 1

/-- `⌊log2 n⌋` for `n ≥ 1` (0 at 0). -/
def log2N (n : Nat) : Nat := log2Fuel n n

/-- The IEEE binary64 quotient of the exactly representable naturals
`n / d`, as a dyadic pair `(m, e)` of value `m * 2 ^ e`: the exact
quotient rounded to a 53-bit significand, round half to even.  Covers the
normal range, which holds every size arising here.  `d = 0` (Python
`ZeroDivisionError`) and `n = 0` give `(0, 0)`; the `d = 0` case is
excluded by hypothesis wherever it is used. -/
def fl64DivPair (n d : Nat) : Nat × Int :=
  if n = 0 ∨ d = 0 then (0, 0)
  else
    let L := log2N n
    let M := log2N d
    let e : Int :=
      if M ≤ L then
        (if d * 2 ^ (L - M) ≤ n then ((L - M : Nat) : Int)
          else ((L - M : Nat) : Int) - 1)
      else
        (if d ≤ n * 2 ^ (M - L) then -((M - L : Nat) : Int)
          else -((M - L : Nat) : Int) - 1)
    let s : Int := 52 - e
    let p : Nat := if 0 ≤ s then n * 2 ^ s.toNat else n
    let q : Nat := if 0 ≤ s then d else d * 2 ^ (-s).toNat
    (roundMantissa p q, e - 52)

/-- The IEEE binary64 product of the exactly representable natural `c`
with the binary64 value `(m, e)`: the exact product `c * m * 2 ^ e`
rounded to a 53-bit significand, round half to even. -/
def fl64MulPair (c : Nat) (me : Nat × Int) : Nat × Int :=
  let N := c * me.1
  if N = 0 then (0, 0)
  else
    let L := log2N N
    if L ≤ 52 then (N, me.2)
    else (roundMantissa N (2 ^ (L - 52)), me.2 + (L - 52))

/-- Python `int()` of the nonnegative binary64 value `m * 2 ^ e`:
truncation toward zero. -/
def pairTruncToNat (me : Nat × Int) : Nat :=
  if 0 ≤ me.2 then me.1 * 2 ^ me.2.toNat else me.1 / 2 ^ (-me.2).toNat

/-- Source lines 134-135: `wpercent = basewidth / float(logo.size[0])`
then `hsize = int(float(logo.size[1]) * wpercent)`, in IEEE binary64
arithmetic: one correct rounding for the division, one for the product,
then truncation toward zero.  This tracks CPython exactly (e.g.
`pyHsize 29 31 29 = 30`, where the exact rational floor would be 31). -/
def pyHsize (logoH bw logoW : Nat) : Nat :=
  pairTruncToNat (fl64MulPair logoH (fl64DivPair bw logoW))

/-- The resized logo of the logo branch (source lines 133-143):
`basewidth = img.size[0] // 4`, `hsize = int(float(logo.size[1]) *
wpercent)` with the float arithmetic of `pyHsize`, `logo =
logo.resize((basewidth, hsize), LANCZOS)`. -/
def resizedLogo (k : Kernel) (img logo : Img) : Img :=
  resize k logo (img.w / 4) (pyHsize logo.h (img.w / 4) logo.w)

/-- The paste position of the logo branch (source lines 144-145):
`((img.w - logo.w) // 2, (img.h - logo.h) // 2)`; Python `//` is floor
division, `Int.fdiv`. -/
def logoPos (img lg : Img) : Int × Int :=
  (((img.w : Int) - (lg.w : Int)).fdiv 2,
   ((img.h : Int) - (lg.h : Int)).fdiv 2)

/-- The logo branch of `generate_qr` (source lines 131-147): resize the
logo, compute the centered position, paste with the resized logo as its
own alpha mask when its mode is RGBA, with no mask otherwise. -/
def applyLogo (k : Kernel) (img logo : Img) : Img :=
  paste img (resizedLogo k img logo) (logoPos img (resizedLogo k img logo))
    (if (resizedLogo k img logo).mode = Mode.RGBA
      then some (resizedLogo k img logo) else none)

/-- `generate_qr` (source lines 120-149) after the external `qrcode`
library has rendered the module grid to the RGB image `qrImg`: with no
logo the image is returned as is, otherwise the logo branch runs. -/
def generate_qr (k : Kernel) (qrImg : Img) (logo_file : Option Img) : Img :=
  match logo_file with
  | none => qrImg
  | some logo => applyLogo k qrImg logo

/-!
## Concrete inputs used by witnesses and counterexamples
-/

/-- A text-mode record with a set expiry, used in concrete states. -/
def recA : FileRecord :=
  { uuid := "a", file_name := "hello", local_path := none,
    uploaded_at := 0, expires_at := some 5, qr_url := "hello", scans := 0 }

/-- An upload-mode record whose backing file will be absent. -/
def recB : FileRecord :=
  { uuid := "b", file_name := "doc.pdf",
    local_path := some "/tmp/b_doc.pdf", uploaded_at := 0,
    expires_at := some 5, qr_url := "file:///tmp/b_doc.pdf", scans := 0 }

/-- A record with an unset (NULL/empty) `expires_at` column. -/
def recC : FileRecord :=
  { uuid := "c", file_name := "keep", local_path := none,
    uploaded_at := 0, expires_at := none, qr_url := "keep", scans := 0 }

/-- A 100×100 RGB output image (all white). -/
def imgA : Img :=
  { w := 100, h := 100, mode := Mode.RGB,
    px := fun _ _ => { r := 255, g := 255, b := 255, a := 255 } }

/-- A 102×102 RGB output image: its width is not divisible by 4. -/
def imgB : Img :=
  { w := 102, h := 102, mode := Mode.RGB,
    px := fun _ _ => { r := 255, g := 255, b := 255, a := 255 } }

/-- A 125×125 RGB output image: a 25-module QR (version 1 with border 2)
at `box_size = 5`, all within the sidebar slider ranges. -/
def imgC : Img :=
  { w := 125, h := 125, mode := Mode.RGB,
    px := fun _ _ => { r := 255, g := 255, b := 255, a := 255 } }

/-- A square 29×29 RGB logo. -/
def squareLogo : Img :=
  { w := 29, h := 29, mode := Mode.RGB,
    px := fun _ _ => { r := 9, g := 9, b := 9, a := 255 } }

/-- A 1×1 logo, narrower than a quarter of `imgA`. -/
def tinyLogo : Img :=
  { w := 1, h := 1, mode := Mode.RGBA,
    px := fun _ _ => { r := 9, g := 9, b := 9, a := 255 } }

/-- A 40×40 RGB logo (no alpha channel). -/
def rgbLogo : Img :=
  { w := 40, h := 40, mode := Mode.RGB,
    px := fun _ _ => { r := 10, g := 20, b := 30, a := 255 } }

theorem processRow_not_expired (removeOk : String → Bool) (now : Nat)
    (st : AppState) (row : FileRecord) (h : rowExpired now row = false) :
    processRow removeOk now st row = st := by
  unfold processRow rowExpired at *
  cases hE : row.expires_at with
  | none => simp
  | some eTime =>
    rw [hE] at h
    simp only [decide_eq_false_iff_not] at h
    simp [h]

theorem processRow_files_expired (removeOk : String → Bool) (now : Nat)
    (st : AppState) (row : FileRecord) (h : rowExpired now row = true) :
    (processRow removeOk now st row).files
      = st.files.filter (fun x => x.uuid != row.uuid) := by
  unfold processRow rowExpired at *
  cases hE : row.expires_at with
  | none => rw [hE] at h; simp at h
  | some eTime =>
    rw [hE] at h
    simp only [decide_eq_true_eq] at h
    simp [h]

theorem survives_cons (now : Nat) (r : FileRecord) (rows : List FileRecord)
    (x : FileRecord) :
    survives now (r :: rows) x
      = ((!rowExpired now r || x.uuid != r.uuid) && survives now rows x) := by
  simp [survives, List.all_cons]

theorem foldl_processRow_files (removeOk : String → Bool) (now : Nat) :
    ∀ (rows : List FileRecord) (acc : AppState),
      (rows.foldl (processRow removeOk now) acc).files
        = acc.files.filter (survives now rows) := by
  intro rows
  induction rows with
  | nil =>
    intro acc
    have hall : ∀ x ∈ acc.files, survives now [] x = true := by
      intro x _; simp [survives]
    exact (List.filter_eq_self.mpr hall).symm
  | cons r rows ih =>
    intro acc
    rw [List.foldl_cons, ih]
    cases hE : rowExpired now r with
    | false =>
      rw [processRow_not_expired removeOk now acc r hE]
      apply List.filter_congr
      intro x _
      rw [survives_cons, hE]
      simp
    | true =>
      rw [processRow_files_expired removeOk now acc r hE, List.filter_filter]
      apply List.filter_congr
      intro x _
      rw [survives_cons, hE]
      simp [Bool.and_comm]

theorem cleanup_files_eq (removeOk : String → Bool) (now : Nat)
    (st : AppState) :
    (cleanup_expired_files removeOk now st).1.files
      = st.files.filter (survives now st.files) :=
  foldl_processRow_files removeOk now st.files st

theorem survives_eq_true_iff (now : Nat) (rows : List FileRecord)
    (x : FileRecord) :
    survives now rows x = true
      ↔ ∀ r ∈ rows, rowExpired now r = true → x.uuid ≠ r.uuid := by
  simp only [survives, List.all_eq_true, Bool.or_eq_true, Bool.not_eq_true',
    bne_iff_ne, ne_eq]
  constructor
  · intro h r hr he
    rcases h r hr with h1 | h1
    · rw [he] at h1; exact absurd h1 (by simp)
    · exact h1
  · intro h r hr
    cases he : rowExpired now r with
    | false => exact Or.inl rfl
    | true => exact Or.inr (h r hr he)

theorem not_survives_self (now : Nat) (rows : List FileRecord)
    (r : FileRecord) (hr : r ∈ rows) (he : rowExpired now r = true) :
    survives now rows r = false := by
  cases hs : survives now rows r with
  | false => rfl
  | true => exact absurd rfl ((survives_eq_true_iff now rows r).mp hs r hr he)

theorem expired_deleted (removeOk : String → Bool) (now : Nat)
    (st : AppState) (r : FileRecord) (hr : r ∈ st.files)
    (he : rowExpired now r = true) :
    r ∉ (cleanup_expired_files removeOk now st).1.files := by
  rw [cleanup_files_eq]
  intro hmem
  have := List.of_mem_filter hmem
  rw [not_survives_self now st.files r hr he] at this
  exact absurd this (by simp)

theorem mem_cleanup_iff (removeOk : String → Bool) (now : Nat)
    (st : AppState) (r : FileRecord) (hnd : uuidsNodup st)
    (hr : r ∈ st.files) :
    r ∈ (cleanup_expired_files removeOk now st).1.files
      ↔ rowExpired now r = false := by
  rw [cleanup_files_eq, List.mem_filter]
  constructor
  · intro ⟨_, hs⟩
    cases he : rowExpired now r with
    | false => rfl
    | true =>
      rw [not_survives_self now st.files r hr he] at hs
      exact absurd hs (by simp)
  · intro he
    refine ⟨hr, (survives_eq_true_iff now st.files r).mpr ?_⟩
    intro r' hr' he' hne
    have : r = r' :=
      List.inj_on_of_nodup_map hnd hr hr' hne
    rw [this, he'] at he
    exact absurd he (by simp)

theorem cleanup_result_not_expired (removeOk : String → Bool) (now : Nat)
    (st : AppState) :
    ∀ r ∈ (cleanup_expired_files removeOk now st).1.files,
      rowExpired now r = false := by
  intro r hmem
  rw [cleanup_files_eq] at hmem
  have hr := List.mem_of_mem_filter hmem
  have hs := List.of_mem_filter hmem
  cases he : rowExpired now r with
  | false => rfl
  | true =>
    rw [not_survives_self now st.files r hr he] at hs
    exact absurd hs (by simp)

theorem foldl_processRow_id (removeOk : String → Bool) (now : Nat) :
    ∀ (rows : List FileRecord) (acc : AppState),
      (∀ r ∈ rows, rowExpired now r = false) →
      rows.foldl (processRow removeOk now) acc = acc := by
  intro rows
  induction rows with
  | nil => intro acc _; rfl
  | cons r rows ih =>
    intro acc h
    rw [List.foldl_cons,
      processRow_not_expired removeOk now acc r (h r (List.mem_cons_self r rows))]
    exact ih acc fun r' hr' => h r' (List.mem_cons_of_mem r hr')

theorem reachable_scans_zero {st : AppState} (h : Reachable st) :
    ∀ r ∈ st.files, r.scans = 0 := by
  induction h with
  | init fs => intro r hr; exact absurd hr (List.not_mem_nil r)
  | step _ hs ih =>
    intro r hr
    cases hs with
    | text uid qr_data tExp tUp days st =>
      rcases List.mem_append.mp hr with h1 | h1
      · exact ih r h1
      · rw [List.mem_singleton.mp h1]; rfl
    | upload uid name tExp tUp days st =>
      rcases List.mem_append.mp hr with h1 | h1
      · exact ih r h1
      · rw [List.mem_singleton.mp h1]; rfl
    | sweep removeOk now st =>
      rw [cleanup_files_eq] at hr
      exact ih r (List.mem_of_mem_filter hr)

theorem rowExpired_eq_of_some (now : Nat) (r : FileRecord) (e : Nat)
    (he : r.expires_at = some e) : rowExpired now r = decide (e < now) := by
  unfold rowExpired
  rw [he]

theorem rowExpired_eq_of_none (now : Nat) (r : FileRecord)
    (he : r.expires_at = none) : rowExpired now r = false := by
  unfold rowExpired
  rw [he]

theorem center_bound (W w : Nat) :
    (2 * ((W : Int) - (w : Int)).fdiv 2 + (w : Int) - (W : Int)).natAbs ≤ 1 := by
  rw [Int.fdiv_eq_ediv _ (by norm_num)]
  omega

/-- C1 (counterexample): `expires_at` is computed from the `datetime.now()`
read at source line 224 while `uploaded_at` comes from a second read at
line 228; when the clock advances by one second between the two reads
(`tExp = 0`, `tUp = 1`, TTL one day) the stored record violates the
claimed equality `expires_at == created_at + ttl_days`. -/
theorem creation_equiv_counterexample :
    (mkTextRecord "u" "d" 0 1 1).uploaded_at = 1
    ∧ (mkTextRecord "u" "d" 0 1 1).expires_at = some 86400
    ∧ (mkTextRecord "u" "d" 0 1 1).expires_at
        ≠ some ((mkTextRecord "u" "d" 0 1 1).uploaded_at + daysToSeconds 1) := by
  refine ⟨rfl, rfl, ?_⟩
  simp [mkTextRecord, daysToSeconds]

/-- C1 (amended): for every TTL `days > 0`, a created record (text or
upload mode) stores `expires_at = tExp + ttl` where `tExp` is the clock
read from which the expiry was computed; `created_at` (`uploaded_at`) is
the second, later read, so `expires_at = created_at + ttl` holds exactly
when the two reads coincide; whenever the inter-read gap is smaller than
the TTL, `expires_at > created_at`; and the scan counter starts at 0. -/
theorem creation_expiry_scans (uid qr name : String) (tExp tUp days : Nat)
    (hd : 0 < days) (hord : tExp ≤ tUp)
    (hgap : tUp - tExp < daysToSeconds days) :
    (mkTextRecord uid qr tExp tUp days).expires_at
        = some (tExp + daysToSeconds days)
    ∧ (mkUploadRecord uid name tExp tUp days).expires_at
        = some (tExp + daysToSeconds days)
    ∧ (tExp = tUp →
        (mkTextRecord uid qr tExp tUp days).expires_at
          = some ((mkTextRecord uid qr tExp tUp days).uploaded_at
              + daysToSeconds days))
    ∧ (∀ e, (mkTextRecord uid qr tExp tUp days).expires_at = some e →
        (mkTextRecord uid qr tExp tUp days).uploaded_at < e)
    ∧ (∀ e, (mkUploadRecord uid name tExp tUp days).expires_at = some e →
        (mkUploadRecord uid name tExp tUp days).uploaded_at < e)
    ∧ (mkTextRecord uid qr tExp tUp days).scans = 0
    ∧ (mkUploadRecord uid name tExp tUp days).scans = 0 := by
  have hlt : tUp < tExp + daysToSeconds days := by
    unfold daysToSeconds at *
    omega
  refine ⟨rfl, rfl, ?_, ?_, ?_, rfl, rfl⟩
  · intro hEq
    simp [mkTextRecord, hEq]
  · intro e he
    simp only [mkTextRecord, Option.some.injEq] at he
    show tUp < e
    omega
  · intro e he
    simp only [mkUploadRecord, Option.some.injEq] at he
    show tUp < e
    omega

/-- Witness for C1 (amended) at `tExp = tUp = 5`, `days = 7`. -/
theorem creation_expiry_scans_witness :
    (0 < 7 ∧ 5 ≤ 5 ∧ 5 - 5 < daysToSeconds 7)
    ∧ ((mkTextRecord "u" "d" 5 5 7).expires_at = some (5 + daysToSeconds 7)
      ∧ (mkUploadRecord "u" "n" 5 5 7).expires_at = some (5 + daysToSeconds 7)
      ∧ (5 = 5 →
          (mkTextRecord "u" "d" 5 5 7).expires_at
            = some ((mkTextRecord "u" "d" 5 5 7).uploaded_at + daysToSeconds 7))
      ∧ (∀ e, (mkTextRecord "u" "d" 5 5 7).expires_at = some e →
          (mkTextRecord "u" "d" 5 5 7).uploaded_at < e)
      ∧ (∀ e, (mkUploadRecord "u" "n" 5 5 7).expires_at = some e →
          (mkUploadRecord "u" "n" 5 5 7).uploaded_at < e)
      ∧ (mkTextRecord "u" "d" 5 5 7).scans = 0
      ∧ (mkUploadRecord "u" "n" 5 5 7).scans = 0) :=
  ⟨⟨by decide, by decide, by decide⟩,
    creation_expiry_scans "u" "d" "n" 5 5 7 (by decide) (by decide) (by decide)⟩

/-- C2: a stored record with a set expiry is removed by the sweep exactly
when its expiry instant is strictly earlier than the sweep time `now`; in
particular it is removed at every time `expiry + ε` with `ε > 0` and kept
at every time `expiry - ε`. -/
theorem sweep_deletes_iff_expired (removeOk : String → Bool)
    (st : AppState) (r : FileRecord) (e : Nat) (hnd : uuidsNodup st)
    (hr : r ∈ st.files) (he : r.expires_at = some e) :
    (∀ now, r ∉ (cleanup_expired_files removeOk now st).1.files ↔ e < now)
    ∧ (∀ ε, 0 < ε →
        r ∉ (cleanup_expired_files removeOk (e + ε) st).1.files)
    ∧ (∀ ε, 0 < ε →
        r ∈ (cleanup_expired_files removeOk (e - ε) st).1.files) := by
  have key : ∀ now,
      r ∉ (cleanup_expired_files removeOk now st).1.files ↔ e < now := by
    intro now
    rw [mem_cleanup_iff removeOk now st r hnd hr,
      rowExpired_eq_of_some now r e he]
    simp
  refine ⟨key, fun ε hε => (key (e + ε)).mpr (by omega), fun ε hε => ?_⟩
  by_contra hmem
  have := (key (e - ε)).mp hmem
  omega

/-- Witness for C2: the record `recA` (expiry 5) in a two-record state is
removed by a sweep at time 6. -/
theorem sweep_deletes_iff_expired_witness :
    (uuidsNodup ⟨[recA, recC], []⟩
      ∧ recA ∈ (AppState.mk [recA, recC] []).files
      ∧ recA.expires_at = some 5)
    ∧ recA ∉ (cleanup_expired_files (fun _ => true) (5 + 1)
        ⟨[recA, recC], []⟩).1.files :=
  ⟨⟨by decide, by decide, by decide⟩,
    (sweep_deletes_iff_expired (fun _ => true) ⟨[recA, recC], []⟩ recA 5
      (by decide) (by decide) (by decide)).2.1 1 (by decide)⟩

/-- C3: the sweep deletes every expired record from the registry whatever
the removal oracle (`os.remove` failing on every path) and whatever the
filesystem contents (backing resource absent); the surviving rows do not
depend on either, and the sweep is a total function — no resource error
escapes it. -/
theorem sweep_best_effort (removeOk removeOk' : String → Bool) (now : Nat)
    (files : List FileRecord) (fs fs' : List String) (r : FileRecord)
    (hr : r ∈ files) (he : rowExpired now r = true) :
    r ∉ (cleanup_expired_files removeOk now ⟨files, fs⟩).1.files
    ∧ (cleanup_expired_files removeOk now ⟨files, fs⟩).1.files
        = (cleanup_expired_files removeOk' now ⟨files, fs'⟩).1.files :=
  ⟨expired_deleted removeOk now ⟨files, fs⟩ r hr he,
    by rw [cleanup_files_eq, cleanup_files_eq]⟩

/-- Witness for C3: the expired upload record `recB` is deleted from the
registry even though its backing file is absent (`fs = []`) and
`os.remove` fails on every path. -/
theorem sweep_best_effort_witness :
    (recB ∈ [recB] ∧ rowExpired 10 recB = true)
    ∧ recB ∉ (cleanup_expired_files (fun _ => false) 10 ⟨[recB], []⟩).1.files :=
  ⟨⟨by decide, by decide⟩,
    (sweep_best_effort (fun _ => false) (fun _ => true) 10 [recB] [] []
      recB (by decide) (by decide)).1⟩

/-- C4 (counterexample): sweeping a state that holds exactly one expired
record removes one record, but the Python function returns `None` — not
the number of records it removed. -/
theorem sweep_return_counterexample :
    ((AppState.mk [recA] []).files.length
        - (cleanup_expired_files (fun _ => true) 10
            ⟨[recA], []⟩).1.files.length = 1)
    ∧ (cleanup_expired_files (fun _ => true) 10 ⟨[recA], []⟩).2
        ≠ some ((AppState.mk [recA] []).files.length
            - (cleanup_expired_files (fun _ => true) 10
                ⟨[recA], []⟩).1.files.length) := by
  decide

/-- C4 (amended): the sweep returns no count: `cleanup_expired_files` has
no `return` statement, so its Python return value is `None` for every
state, time and removal oracle; the number of records removed is only
observable as the drop in table length. -/
theorem sweep_returns_none (removeOk : String → Bool) (now : Nat)
    (st : AppState) :
    (cleanup_expired_files removeOk now st).2 = none := rfl

/-- C5 (counterexample): the logo branch resizes unconditionally, so a
1×1 logo supplied with a 100×100 output is enlarged to width 25 — the
claimed "downscaling, never upscaling" fails; with a 102×102 output the
target width `102 // 4 = 25` is not exactly one quarter of the output
width; and the square 29×29 logo over the 125×125 output comes out
31×30 (`int(29 * (31/29.0)) = 30` in binary64, though `⌊29·31/29⌋ = 31`),
so the aspect ratio is not preserved even up to the truncation of a
single exact ratio. -/
theorem logo_resize_counterexample :
    tinyLogo.w < (resizedLogo nearestKernel imgA tinyLogo).w
    ∧ (resizedLogo nearestKernel imgB rgbLogo).w * 4 ≠ imgB.w
    ∧ squareLogo.w = squareLogo.h
    ∧ (resizedLogo nearestKernel imgC squareLogo).w = 31
    ∧ (resizedLogo nearestKernel imgC squareLogo).h = 30
    ∧ squareLogo.h * ((imgC.w / 4)) / squareLogo.w = 31 := by
  decide

/-- C5 (amended): the branding image is resized (whether that shrinks or
enlarges it) to width `⌊output_width / 4⌋`, with height the binary64
evaluation of `int(float(logo_h) * (basewidth / float(logo_w)))` — the
same scale factor applied in floating point, so the aspect ratio is
preserved only approximately — and composited with its center within one
pixel of the geometric center of the output on both axes. -/
theorem logo_quarter_centered (k : Kernel) (img logo : Img)
    (hw : 0 < logo.w) :
    (resizedLogo k img logo).w = img.w / 4
    ∧ (resizedLogo k img logo).h = pyHsize logo.h (img.w / 4) logo.w
    ∧ (2 * (logoPos img (resizedLogo k img logo)).1
        + ((resizedLogo k img logo).w : Int) - (img.w : Int)).natAbs ≤ 1
    ∧ (2 * (logoPos img (resizedLogo k img logo)).2
        + ((resizedLogo k img logo).h : Int) - (img.h : Int)).natAbs ≤ 1 :=
  ⟨rfl, rfl, center_bound img.w (resizedLogo k img logo).w,
    center_bound img.h (resizedLogo k img logo).h⟩

/-- Witness for C5 (amended) on the 100×100 output and the 40×40 RGB
logo. -/
theorem logo_quarter_centered_witness :
    (0 < rgbLogo.w)
    ∧ ((resizedLogo nearestKernel imgA rgbLogo).w = imgA.w / 4
      ∧ (resizedLogo nearestKernel imgA rgbLogo).h
          = pyHsize rgbLogo.h (imgA.w / 4) rgbLogo.w
      ∧ (2 * (logoPos imgA (resizedLogo nearestKernel imgA rgbLogo)).1
          + ((resizedLogo nearestKernel imgA rgbLogo).w : Int)
          - (imgA.w : Int)).natAbs ≤ 1
      ∧ (2 * (logoPos imgA (resizedLogo nearestKernel imgA rgbLogo)).2
          + ((resizedLogo nearestKernel imgA rgbLogo).h : Int)
          - (imgA.h : Int)).natAbs ≤ 1) :=
  ⟨by decide, logo_quarter_centered nearestKernel imgA rgbLogo (by decide)⟩

/-- C6: `increment_scan` preserves the number of records (creates none),
bumps the record carrying the given id by exactly one scan, leaves every
other record unchanged, and is a no-op — returning normally — when no
record carries the id. -/
theorem increment_scan_spec (id : String) (st : AppState) :
    ((increment_scan id st).files.length = st.files.length)
    ∧ (∀ r ∈ st.files, r.uuid = id →
        { r with scans := r.scans + 1 } ∈ (increment_scan id st).files)
    ∧ (∀ r ∈ st.files, r.uuid ≠ id → r ∈ (increment_scan id st).files)
    ∧ ((∀ r ∈ st.files, r.uuid ≠ id) → increment_scan id st = st) := by
  refine ⟨by simp [increment_scan], ?_, ?_, ?_⟩
  · intro r hr hid
    unfold increment_scan
    simp only [List.mem_map]
    exact ⟨r, hr, by simp [hid]⟩
  · intro r hr hid
    unfold increment_scan
    simp only [List.mem_map]
    exact ⟨r, hr, by simp [beq_eq_false_iff_ne, hid]⟩
  · intro hall
    have hmap : st.files.map (fun r =>
        if r.uuid == id then { r with scans := r.scans + 1 } else r)
        = st.files := by
      conv_rhs => rw [← List.map_id st.files]
      apply List.map_congr_left
      intro r hr
      simp [beq_eq_false_iff_ne, hall r hr]
    show { st with files := _ } = st
    rw [hmap]

/-- Witness for C6: incrementing the live id `"a"` in a one-record state
yields the same record with `scans = 1`. -/
theorem increment_scan_spec_witness :
    (recA ∈ (AppState.mk [recA] []).files ∧ recA.uuid = "a")
    ∧ (⟨"a", "hello", none, 0, some 5, "hello", 1⟩ : FileRecord)
        ∈ (increment_scan "a" ⟨[recA], []⟩).files :=
  ⟨⟨by decide, rfl⟩,
    (increment_scan_spec "a" ⟨[recA], []⟩).2.1 recA (by decide) rfl⟩

/-- C7: the sweep is idempotent: running it again (with any removal
oracle) at the same time on the state it produced changes nothing and in
particular deletes zero records — the table length is unchanged. -/
theorem sweep_idempotent (removeOk removeOk' : String → Bool) (now : Nat)
    (st : AppState) :
    cleanup_expired_files removeOk' now (cleanup_expired_files removeOk now st).1
        = ((cleanup_expired_files removeOk now st).1, (none : Option Nat))
    ∧ (cleanup_expired_files removeOk' now
        (cleanup_expired_files removeOk now st).1).1.files.length
      = (cleanup_expired_files removeOk now st).1.files.length := by
  have h1 : (cleanup_expired_files removeOk now st).1.files.foldl
      (processRow removeOk' now) (cleanup_expired_files removeOk now st).1
      = (cleanup_expired_files removeOk now st).1 :=
    foldl_processRow_id removeOk' now _ _
      (cleanup_result_not_expired removeOk now st)
  constructor
  · show ((cleanup_expired_files removeOk now st).1.files.foldl
        (processRow removeOk' now) (cleanup_expired_files removeOk now st).1,
        (none : Option Nat)) = _
    rw [h1]
  · show ((cleanup_expired_files removeOk now st).1.files.foldl
        (processRow removeOk' now)
        (cleanup_expired_files removeOk now st).1).files.length = _
    rw [h1]

/-- C9: every reachable registry state holds only records with
`scans = 0`, and every action of the application either appends one whole
new record (a create) or removes whole records (the sweep) — no operation
updates a stored record in place. -/
theorem registry_insert_delete_only (st st' : AppState)
    (hre : Reachable st) (hs : Step st st') :
    (∀ r ∈ st.files, r.scans = 0)
    ∧ (∀ r ∈ st'.files, r.scans = 0)
    ∧ ((∃ newRow, st'.files = st.files ++ [newRow])
        ∨ st'.files.Sublist st.files) := by
  refine ⟨reachable_scans_zero hre,
    reachable_scans_zero (Reachable.step hre hs), ?_⟩
  cases hs with
  | text uid qr_data tExp tUp days st =>
    exact Or.inl ⟨mkTextRecord uid qr_data tExp tUp days, rfl⟩
  | upload uid name tExp tUp days st =>
    exact Or.inl ⟨mkUploadRecord uid name tExp tUp days, rfl⟩
  | sweep removeOk now st =>
    refine Or.inr ?_
    rw [cleanup_files_eq]
    exact List.filter_sublist _

/-- Witness for C9: the first text-mode create out of the empty state. -/
theorem registry_insert_delete_only_witness :
    (∀ r ∈ (AppState.mk [] []).files, r.scans = 0)
    ∧ (∀ r ∈ (create_text "u" "d" 0 0 7 ⟨[], []⟩).files, r.scans = 0)
    ∧ ((∃ newRow, (create_text "u" "d" 0 0 7 ⟨[], []⟩).files
          = (AppState.mk [] []).files ++ [newRow])
        ∨ (create_text "u" "d" 0 0 7 ⟨[], []⟩).files.Sublist
            (AppState.mk [] []).files) :=
  registry_insert_delete_only ⟨[], []⟩ (create_text "u" "d" 0 0 7 ⟨[], []⟩)
    (Reachable.init []) (Step.text "u" "d" 0 0 7 ⟨[], []⟩)

/-- C10: a record whose `expires_at` column is NULL or empty (falsy under
`if expires_at:`) survives every sweep, and the loop body run on such a
row is the identity on the whole state — no timestamp parse, no file
removal, no record deletion. -/
theorem sweep_skips_blank_expiry (removeOk : String → Bool) (now : Nat)
    (st : AppState) (r : FileRecord) (hnd : uuidsNodup st)
    (hr : r ∈ st.files) (he : r.expires_at = none) :
    r ∈ (cleanup_expired_files removeOk now st).1.files
    ∧ ∀ st' : AppState, processRow removeOk now st' r = st' := by
  have hre : rowExpired now r = false := rowExpired_eq_of_none now r he
  exact ⟨(mem_cleanup_iff removeOk now st r hnd hr).mpr hre,
    fun st' => processRow_not_expired removeOk now st' r hre⟩

/-- Witness for C10: `recC` (no expiry) survives a sweep at time 100 that
deletes the expired `recA`. -/
theorem sweep_skips_blank_expiry_witness :
    (uuidsNodup ⟨[recA, recC], []⟩
      ∧ recC ∈ (AppState.mk [recA, recC] []).files
      ∧ recC.expires_at = none)
    ∧ recC ∈ (cleanup_expired_files (fun _ => true) 100
        ⟨[recA, recC], []⟩).1.files :=
  ⟨⟨by decide, by decide, rfl⟩,
    (sweep_skips_blank_expiry (fun _ => true) 100 ⟨[recA, recC], []⟩ recC
      (by decide) (by decide) rfl).1⟩
